import Mathlib

/-!
A shallow embedding of the orchestration core of the auto-claude daemon
(package `worker`: `worker.go`, `actions.go`; package `daemon`: `daemon.go`;
package `git`: `git.go`; package `github`: `github.go`), together with
theorems about the PR classifier, the worker run loop, the per-PR actions,
and the daemon poll loop.

Conventions:
* Go strings become `String`, Go slices become `List`, Go `bool` becomes `Bool`.
* Go maps used as sets become `List String` (the daemon's `workers` map keys);
  Go maps used as caches become functions `String → Option _`.
* External effects (forge calls, git subprocesses, the agent) are modelled by
  oracle environments recording the outcome each call would have, and the
  functions additionally return the trace of calls they perform.
-/

namespace AutoClaude

/-! ### Data model (package github) -/

/-- `github.Check` (github.go). -/
structure Check where
  name : String
  status : String
  conclusion : String
  deriving DecidableEq

/-- `github.Label` (github.go). -/
structure Label where
  name : String
  deriving DecidableEq

/-- `github.PRInfo` (github.go); the `Author` struct is flattened to its
`Login` field, and the raw `StatusCheckRollup` nodes are dropped in favour of
the normalized `Checks`. -/
structure PRInfo where
  number : Nat
  title : String
  headRef : String
  baseRef : String
  url : String
  isDraft : Bool
  author : String
  mergeable : String
  mergeStateStatus : String
  reviewDecision : String
  labels : List Label
  checks : List Check
  deriving DecidableEq

/-- `github.Review` (github.go). -/
structure Review where
  author : String
  state : String
  deriving DecidableEq

/-- `github.ReviewComment` (github.go). -/
structure ReviewComment where
  author : String
  body : String
  deriving DecidableEq

/-- `github.ReviewThread` (github.go). -/
structure ReviewThread where
  id : String
  isResolved : Bool
  isOutdated : Bool
  path : String
  line : Nat
  comments : List ReviewComment
  deriving DecidableEq

/-! ### Author sets (worker.go) -/

/-- The `copilotAuthors` set (worker.go). -/
def copilotAuthors : List String :=
  ["Copilot", "copilot", "github-copilot[bot]", "copilot-pull-request-reviewer"]

/-- The `renovateAuthors` set (worker.go). -/
def renovateAuthors : List String :=
  ["renovate", "renovate[bot]", "renovate-bot", "app/renovate"]

/-- `isCopilotAuthor` (worker.go). -/
def isCopilotAuthor (author : String) : Bool :=
  copilotAuthors.any (fun ca => author == ca)

/-- `isRenovateAuthor` (worker.go). -/
def isRenovateAuthor (author : String) : Bool :=
  renovateAuthors.any (fun ra => author == ra)

/-! ### PR classifier (worker.go: `evaluate`, `checkCopilotReviewStatus`) -/

/-- The `state` enumeration (worker.go). -/
inductive WState
  | draft
  | conflicting
  | checksFailing
  | reviewsPending
  | checksPending
  | ready
  deriving DecidableEq

/-- The `copilotReviewStatus` enumeration (worker.go). -/
inductive CopilotReviewStatus
  | notReviewed
  | unresolved
  | resolved
  deriving DecidableEq

/-- Whether a review thread contains a comment by a Copilot author; this is the
inner comment loop of `checkCopilotReviewStatus` (worker.go), which breaks at
the first Copilot-authored comment. -/
def threadHasCopilotComment (t : ReviewThread) : Bool :=
  t.comments.any (fun c => isCopilotAuthor c.author)

/-- `Worker.checkCopilotReviewStatus` (worker.go).  `hasCopilotReview` is set
by scanning the cached top-level reviews for ANY Copilot-authored entry
(note: with no filter on the review state) and by scanning the cached review
threads; `hasUnresolvedComment` is set by threads that contain a Copilot
comment and are neither resolved nor outdated. -/
def checkCopilotReviewStatus (cachedReviews : List Review)
    (cachedReviewThreads : List ReviewThread) : CopilotReviewStatus :=
  let hasCopilotReview :=
    cachedReviews.any (fun r => isCopilotAuthor r.author)
      || cachedReviewThreads.any (fun t => threadHasCopilotComment t)
  let hasUnresolvedComment :=
    cachedReviewThreads.any
      (fun t => threadHasCopilotComment t && !t.isResolved && !t.isOutdated)
  if !hasCopilotReview then .notReviewed
  else if hasUnresolvedComment then .unresolved
  else .resolved

/-- The Copilot-review gate of `evaluate` (worker.go): the status check runs
only when the policy requires Copilot review and the author is not a Renovate
author; otherwise the gate is trivially passed (`resolved`). -/
def copilotGate (requireCopilotReview : Bool) (author : String)
    (cachedReviews : List Review) (cachedReviewThreads : List ReviewThread) :
    CopilotReviewStatus :=
  if requireCopilotReview && !isRenovateAuthor author then
    checkCopilotReviewStatus cachedReviews cachedReviewThreads
  else .resolved

/-- `Worker.evaluate` (worker.go). -/
def evaluate (pr : PRInfo) (requireCopilotReview : Bool)
    (cachedReviews : List Review) (cachedReviewThreads : List ReviewThread) :
    WState :=
  if pr.isDraft then .draft
  else if pr.mergeable == "CONFLICTING" then .conflicting
  else if pr.checks.any (fun c => c.conclusion == "failure") then .checksFailing
  else if pr.checks.any (fun c => c.conclusion == "" && c.status != "COMPLETED") then
    .checksPending
  else
    match copilotGate requireCopilotReview pr.author cachedReviews cachedReviewThreads with
    | .notReviewed => .checksPending
    | .unresolved => .reviewsPending
    | .resolved =>
      if pr.mergeStateStatus == "BLOCKED" then .reviewsPending
      else .ready

/-! ### Worker actions (actions.go)

Each action is modelled as a function of an oracle environment describing the
outcome each external call would have; the action returns the Go error value
(`Option GoError`, `none` being Go's `nil`) together with the ordered trace of
external calls it performed. -/

/-- Outcome of the `claude.Run` / `claude.RunCommand` invocation: `err` is a
non-nil Go error from the runner itself, `ran` is a returned
`claude.Result{Success, Output}`. -/
inductive AgentOutcome
  | err
  | ran (success : Bool) (output : String)
  deriving DecidableEq

/-- Outcome of `git.HasUnpushedCommits`. -/
inductive UnpushedOutcome
  | err
  | ok (has : Bool)
  deriving DecidableEq

/-- Oracle environment for one action run. -/
structure ActionEnv where
  fetchOk : Bool
  agent : AgentOutcome
  unpushed : UnpushedOutcome
  pushOk : Bool
  deriving DecidableEq

/-- The classified error values an action can return (actions.go). -/
inductive GoError
  | fetchErr
  | agentErr
  | agentFailed (output : String)
  | checkUnpushedErr
  | noCommits
  | pushErr
  deriving DecidableEq

/-- External calls an action can perform. -/
inductive ActionCall
  | fetch
  | agentRun
  | hasUnpushedCommitsCall
  | push
  | resolveThread (id : String) (ok : Bool)
  deriving DecidableEq

/-- The shared five-step body of `resolveConflicts`, `fixChecks` and
`fixReviews` (actions.go): fetch, run the agent, check `HasUnpushedCommits`
("no commits created by claude, cannot push"), push. -/
def runAgentAndPush (env : ActionEnv) : Option GoError × List ActionCall :=
  if !env.fetchOk then (some .fetchErr, [.fetch])
  else
    match env.agent with
    | .err => (some .agentErr, [.fetch, .agentRun])
    | .ran success output =>
      if !success then (some (.agentFailed output), [.fetch, .agentRun])
      else
        match env.unpushed with
        | .err => (some .checkUnpushedErr, [.fetch, .agentRun, .hasUnpushedCommitsCall])
        | .ok has =>
          if !has then (some .noCommits, [.fetch, .agentRun, .hasUnpushedCommitsCall])
          else if !env.pushOk then
            (some .pushErr, [.fetch, .agentRun, .hasUnpushedCommitsCall, .push])
          else (none, [.fetch, .agentRun, .hasUnpushedCommitsCall, .push])

/-- `Worker.resolveConflicts` (actions.go): the prompt construction does not
affect control flow, which is exactly the shared five-step body. -/
def resolveConflicts (env : ActionEnv) : Option GoError × List ActionCall :=
  runAgentAndPush env

/-- `Worker.fixChecks` (actions.go): collecting the failing check names does
not affect control flow, which is exactly the shared five-step body. -/
def fixChecks (env : ActionEnv) : Option GoError × List ActionCall :=
  runAgentAndPush env

/-- The snapshot of unresolved Copilot review threads taken at the top of
`fixReviews` (actions.go): threads that are neither resolved nor outdated and
contain a Copilot-authored comment contribute their ID. -/
def unresolvedCopilotThreadIDs (threads : List ReviewThread) : List String :=
  (threads.filter (fun t => !t.isResolved && !t.isOutdated && threadHasCopilotComment t)).map
    (fun t => t.id)

/-- `Worker.fixReviews` (actions.go): captures the unresolved Copilot thread
IDs, returns nil immediately when there are none, otherwise runs the shared
five-step body and, after a successful push, calls `ResolveReviewThread` on
every captured ID; a per-thread resolve failure is logged and the loop
continues (`resolveOk` gives each call's outcome, which never alters control
flow or the returned error). -/
def fixReviews (threads : List ReviewThread) (env : ActionEnv)
    (resolveOk : String → Bool) : Option GoError × List ActionCall :=
  let unresolvedThreads := unresolvedCopilotThreadIDs threads
  if unresolvedThreads.isEmpty then (none, [])
  else
    match runAgentAndPush env with
    | (some e, calls) => (some e, calls)
    | (none, calls) =>
      (none, calls ++ unresolvedThreads.map (fun id => ActionCall.resolveThread id (resolveOk id)))

/-- The forge calls the merge path can perform (github.go). -/
inductive ForgeCall
  | mergePR (method : String)
  | updateBranch
  deriving DecidableEq

/-- `Worker.merge` (actions.go): a single call
`return w.gh.MergePR(ctx, owner, name, number, w.repo.MergeMethod)`; the
forge's error (`mergePRResult`, `none` being success) is returned unchanged
and no other forge operation is performed. -/
def merge (mergeMethod : String) (mergePRResult : Option String) :
    Option String × List ForgeCall :=
  (mergePRResult, [ForgeCall.mergePR mergeMethod])

/-! ### Git client (git.go): `HasUnpushedCommits` -/

/-- `git.Client.HasUnpushedCommits` (git.go), success path: the combined
output of `git rev-list --count origin/branch..branch` is trimmed and compared
against the string `"0"`. -/
def hasUnpushedCommits (revListOutput : String) : Bool :=
  revListOutput.trim != "0"

/-! ### Worker run loop (worker.go: `Run`)

The loop after worktree setup is modelled as a transition over the worker's
mutable state (`w.pr`, `w.cachedReviews`, `w.cachedReviewThreads`) driven by a
list of per-iteration oracle environments (the fuel); each iteration either
`retry`s (Go `continue`) with one recorded event, or `stop`s (Go `return`)
with the events of its final dispatch. -/

/-- The worker's mutable state during `Run` (worker.go). -/
structure WorkerSt where
  pr : PRInfo
  cachedReviews : List Review
  cachedReviewThreads : List ReviewThread
  deriving DecidableEq

/-- Per-iteration oracle: outcomes of `GetPRDetail`, `GetReviews`,
`GetReviewThreads` (with `none` an error), of the dispatched mutating action
(if any), and of `merge` (if attempted). -/
structure IterEnv where
  prDetail : Option PRInfo
  reviews : Option (List Review)
  threads : Option (List ReviewThread)
  actionOk : Bool
  mergeOk : Bool
  deriving DecidableEq

/-- Observable events of one `Run` invocation. -/
inductive RunEvent
  | getPRDetailFail
  | getReviewsFail
  | getThreadsFail
  | actionResolveConflicts (ok : Bool)
  | actionFixChecks (ok : Bool)
  | actionFixReviews (ok : Bool)
  | mergeAttempt (ok : Bool)
  deriving DecidableEq

/-- Result of one loop iteration: `retry ev st` is a Go `continue` after
recording `ev` with updated worker state `st`; `stop evs` is a Go `return`
after recording `evs`. -/
inductive IterStep
  | retry (ev : RunEvent) (st : WorkerSt)
  | stop (evs : List RunEvent)
  deriving DecidableEq

/-- The `switch s` dispatch of `Run` (worker.go): draft and checks_pending
return with no action; conflicting, checks_failing and reviews_pending
dispatch their action and return whether it succeeded or not; ready attempts
the merge, returning on success and continuing the loop (`continue`) on merge
error. -/
def dispatch (requireCopilotReview : Bool) (st : WorkerSt) (e : IterEnv) : IterStep :=
  match evaluate st.pr requireCopilotReview st.cachedReviews st.cachedReviewThreads with
  | .draft => .stop []
  | .conflicting => .stop [.actionResolveConflicts e.actionOk]
  | .checksFailing => .stop [.actionFixChecks e.actionOk]
  | .reviewsPending => .stop [.actionFixReviews e.actionOk]
  | .checksPending => .stop []
  | .ready =>
    if e.mergeOk then .stop [.mergeAttempt true]
    else .retry (.mergeAttempt false) st

/-- The Copilot-review presence check of `Run` (worker.go): used there to
decide whether review threads must be fetched, ignoring `PENDING` and
`DISMISSED` reviews. -/
def hasSubmittedCopilotReview (reviews : List Review) : Bool :=
  reviews.any (fun r =>
    isCopilotAuthor r.author && !(r.state == "PENDING") && !(r.state == "DISMISSED"))

/-- One iteration of the `Run` loop (worker.go): refresh the PR
(`GetPRDetail`; on error `continue`), refresh the review caches when Copilot
review is required and the author is not Renovate (on error `continue`; review
threads are fetched only when a submitted Copilot review exists, otherwise the
thread cache is cleared), then evaluate and dispatch. -/
def runIter (requireCopilotReview : Bool) (st : WorkerSt) (e : IterEnv) : IterStep :=
  match e.prDetail with
  | none => .retry .getPRDetailFail st
  | some pr =>
    let st1 : WorkerSt := { st with pr := pr }
    if requireCopilotReview && !isRenovateAuthor pr.author then
      match e.reviews with
      | none => .retry .getReviewsFail st1
      | some rs =>
        let st2 : WorkerSt := { st1 with cachedReviews := rs }
        if hasSubmittedCopilotReview rs then
          match e.threads with
          | none => .retry .getThreadsFail st2
          | some ts => dispatch requireCopilotReview { st2 with cachedReviewThreads := ts } e
        else dispatch requireCopilotReview { st2 with cachedReviewThreads := [] } e
    else dispatch requireCopilotReview st1 e

/-- The `for` loop of `Run` (worker.go), driven by the per-iteration oracle
list; returns the accumulated events and whether the invocation returned
(`true`) or was still looping when the oracle list ran out (`false`). -/
def runLoop (requireCopilotReview : Bool) : WorkerSt → List IterEnv → List RunEvent × Bool
  | _, [] => ([], false)
  | st, e :: rest =>
    match runIter requireCopilotReview st e with
    | .stop evs => (evs, true)
    | .retry ev st' =>
      let r := runLoop requireCopilotReview st' rest
      (ev :: r.1, r.2)

/-- Events on which the Go code `continue`s the loop: transient fetch
failures and a failed merge attempt. Every other event is followed by a
`return`. -/
def isContinueEvent : RunEvent → Bool
  | .getPRDetailFail => true
  | .getReviewsFail => true
  | .getThreadsFail => true
  | .mergeAttempt ok => !ok
  | _ => false

/-- Events corresponding to a dispatched action (a mutating action or a merge
attempt). -/
def isActionEvent : RunEvent → Bool
  | .actionResolveConflicts _ => true
  | .actionFixChecks _ => true
  | .actionFixReviews _ => true
  | .mergeAttempt _ => true
  | _ => false

/-! ### Daemon / scheduler (daemon.go: `pollRepo` and friends) -/

/-- `config.RepoConfig`, restricted to the fields `pollRepo` reads. -/
structure RepoConfig where
  owner : String
  name : String
  baseBranch : String
  excludeAuthors : List String
  mergeMethod : String
  maxConcurrentPRs : Nat
  requireCopilotReview : Bool
  deriving DecidableEq

/-- `workerKey` (daemon.go): `fmt.Sprintf("%s/%s#%d", owner, repo, number)`. -/
def workerKey (owner repo : String) (number : Nat) : String :=
  owner ++ "/" ++ repo ++ "#" ++ Nat.repr number

/-- The repo cache key `owner + "/" + name` (daemon.go). -/
def repoKeyOf (repo : RepoConfig) : String :=
  repo.owner ++ "/" ++ repo.name

/-- The worker-key match used by `countActiveForRepo` and the cancel loop of
`pollRepo` (daemon.go): `len(key) > len(prefix) && key[:len(prefix)] == prefix`
for the prefix `owner + "/" + name + "#"`. -/
def keyMatchesRepo (pfx : String) (k : String) : Bool :=
  pfx.length < k.length && k.startsWith pfx

/-- `Daemon.countActiveForRepo` (daemon.go). -/
def countActiveForRepo (repo : RepoConfig) (workers : List String) : Nat :=
  workers.countP (fun k => keyMatchesRepo (repo.owner ++ "/" ++ repo.name ++ "#") k)

/-- `blockingLabels` / `hasBlockingLabel` (daemon.go): the closed label set
`{blocked, on-hold}`. -/
def hasBlockingLabel (pr : PRInfo) : Bool :=
  pr.labels.any (fun l => l.name == "blocked" || l.name == "on-hold")

/-- `isExcluded` (daemon.go). -/
def isExcluded (author : String) (excluded : List String) : Bool :=
  excluded.any (fun e => author == e)

/-- The per-PR spawn loop of `pollRepo` (daemon.go): skip excluded authors,
drafts, blocking labels and keys that already have a worker; break out of the
loop once `activeCount` reaches `maxConcurrentPRs`; otherwise `startWorker`
(the key is added to the workers map) and increment `activeCount`. -/
def spawnLoop (repo : RepoConfig) : List String → Nat → List PRInfo → List String
  | workers, _, [] => workers
  | workers, activeCount, pr :: rest =>
    let key := workerKey repo.owner repo.name pr.number
    if isExcluded pr.author repo.excludeAuthors then spawnLoop repo workers activeCount rest
    else if pr.isDraft then spawnLoop repo workers activeCount rest
    else if hasBlockingLabel pr then spawnLoop repo workers activeCount rest
    else if workers.contains key then spawnLoop repo workers activeCount rest
    else if repo.maxConcurrentPRs ≤ activeCount then workers
    else spawnLoop repo (key :: workers) (activeCount + 1) rest

/-- The worker-map effect of one `pollRepo` (daemon.go): run the spawn loop
with `activeCount` initialised from `countActiveForRepo`, then cancel (remove)
every worker whose key matches this repo's prefix but whose PR is no longer in
the open list. -/
def pollRepoWorkers (repo : RepoConfig) (workers : List String)
    (prs : List PRInfo) : List String :=
  let workers' := spawnLoop repo workers (countActiveForRepo repo workers) prs
  let openKeys := prs.map (fun pr => workerKey repo.owner repo.name pr.number)
  workers'.filter (fun k =>
    !(keyMatchesRepo (repo.owner ++ "/" ++ repo.name ++ "#") k) || openKeys.contains k)

/-- The Copilot-status prefetch for one PR in `pollRepo` (daemon.go):
Renovate PRs record `(false, false)` without fetching; a failed `GetReviews`
or `GetReviewThreads` yields `none` (the PR's cache entries are skipped);
otherwise the recorded pair is `(hasCopilotReview, hasUnresolvedCopilot)`,
where review threads are only fetched when a submitted (non-`PENDING`,
non-`DISMISSED`) Copilot review exists. -/
def prefetchCopilotStatus (pr : PRInfo) (reviewsRes : Option (List Review))
    (threadsRes : Option (List ReviewThread)) : Option (Bool × Bool) :=
  if isRenovateAuthor pr.author then some (false, false)
  else
    match reviewsRes with
    | none => none
    | some reviews =>
      let hasCopilotReview := reviews.any (fun r =>
        isCopilotAuthor r.author && !(r.state == "PENDING") && !(r.state == "DISMISSED"))
      if hasCopilotReview then
        match threadsRes with
        | none => none
        | some threads =>
          let hasUnresolvedCopilot := threads.any (fun t =>
            threadHasCopilotComment t && !t.isResolved && !t.isOutdated)
          some (true, hasUnresolvedCopilot)
      else some (false, false)

/-- The `copilotStatuses` list built by `pollRepo` (daemon.go): one entry per
open PR whose prefetch succeeded, keyed by `workerKey`; empty when the repo
does not require Copilot review. -/
def pollStatuses (repo : RepoConfig) (prs : List PRInfo)
    (fetchReviews : Nat → Option (List Review))
    (fetchThreads : Nat → Option (List ReviewThread)) : List (String × Bool × Bool) :=
  if repo.requireCopilotReview then
    prs.filterMap (fun pr =>
      (prefetchCopilotStatus pr (fetchReviews pr.number) (fetchThreads pr.number)).map
        (fun s => (workerKey repo.owner repo.name pr.number, s.1, s.2)))
  else []

/-- The daemon's PR caches guarded by `prCacheMu` (daemon.go), modelled as
finite maps from cache key. -/
structure PRCacheState where
  prCache : String → Option (List PRInfo)
  copilotReviewCache : String → Option Bool
  copilotUnresolvedCache : String → Option Bool

/-- The cache-write loop of `pollRepo` (daemon.go): for each collected status
write `copilotReviewCache[prKey]` and `copilotUnresolvedCache[prKey]`. -/
def writeStatuses (review unresolved : String → Option Bool) :
    List (String × Bool × Bool) → (String → Option Bool) × (String → Option Bool)
  | [] => (review, unresolved)
  | s :: rest =>
    writeStatuses (fun k => if k == s.1 then some s.2.1 else review k)
      (fun k => if k == s.1 then some s.2.2 else unresolved k) rest

/-- The cache effect of one `pollRepo` (daemon.go): under `prCacheMu`,
`prCache[repoKey]` is replaced with the freshly listed PRs and the collected
Copilot statuses are written. -/
def pollRepoCacheUpdate (repo : RepoConfig) (c : PRCacheState) (prs : List PRInfo)
    (fetchReviews : Nat → Option (List Review))
    (fetchThreads : Nat → Option (List ReviewThread)) : PRCacheState :=
  let sts := pollStatuses repo prs fetchReviews fetchThreads
  let updated := writeStatuses c.copilotReviewCache c.copilotUnresolvedCache sts
  { prCache := fun k => if k == repoKeyOf repo then some prs else c.prCache k
    copilotReviewCache := updated.1
    copilotUnresolvedCache := updated.2 }

/-! ### Concrete values used by counterexamples and witnesses -/

/-- A non-draft, mergeable PR with a completed successful check and
`mergeStateStatus = BLOCKED`. -/
def prBlocked : PRInfo :=
  ⟨42, "add feature", "feature", "main", "https://example.test/pr/42", false, "alice",
    "MERGEABLE", "BLOCKED", "", [], [⟨"ci", "COMPLETED", "success"⟩]⟩

/-- A non-draft, mergeable PR with `mergeStateStatus = BEHIND`. -/
def prBehind : PRInfo :=
  ⟨43, "bump dep", "bump", "main", "https://example.test/pr/43", false, "alice",
    "MERGEABLE", "BEHIND", "", [], [⟨"ci", "COMPLETED", "success"⟩]⟩

/-- A non-draft, mergeable PR with an empty checks list and
`mergeStateStatus = CLEAN`. -/
def prNoChecks : PRInfo :=
  ⟨7, "tiny fix", "fix", "main", "https://example.test/pr/7", false, "alice",
    "MERGEABLE", "CLEAN", "", [], []⟩

/-- A Copilot review still in state `PENDING`. -/
def pendingCopilotReview : Review := ⟨"Copilot", "PENDING"⟩

/-! ### C1: classifier dispatch on mergeStateStatus -/

/-- C1, counterexample.  The claim states that a gate-passing PR whose
`mergeStateStatus` is neither `BEHIND` nor `CLEAN` classifies as
`checks_pending`; `prBlocked` satisfies every hypothesis of the claim
(not draft, not conflicting, no failing or pending check, exempt from the
Copilot gate) and has `mergeStateStatus = BLOCKED`, yet `evaluate` returns
`reviews_pending`, not `checks_pending`. -/
theorem evaluate_blocked_counterexample :
    prBlocked.isDraft = false
    ∧ (prBlocked.mergeable == "CONFLICTING") = false
    ∧ prBlocked.checks.any (fun c => c.conclusion == "failure") = false
    ∧ prBlocked.checks.any (fun c => c.conclusion == "" && c.status != "COMPLETED") = false
    ∧ copilotGate false prBlocked.author [] [] = CopilotReviewStatus.resolved
    ∧ prBlocked.mergeStateStatus ≠ "BEHIND"
    ∧ prBlocked.mergeStateStatus ≠ "CLEAN"
    ∧ evaluate prBlocked false [] [] = WState.reviewsPending
    ∧ evaluate prBlocked false [] [] ≠ WState.checksPending := by
  decide

/-- C1, amended.  For every PR snapshot that is not a draft, is not
CONFLICTING, has no failing check, has no pending check, and passes (or is
exempt from) the Copilot-review gate, the classifier returns `reviews_pending`
when `mergeStateStatus = BLOCKED` and `ready` for every other value of
`mergeStateStatus` (in particular for `BEHIND` and for `CLEAN`). -/
theorem evaluate_merge_state_dispatch (pr : PRInfo) (reqCopilot : Bool)
    (rs : List Review) (ts : List ReviewThread)
    (h1 : pr.isDraft = false)
    (h2 : (pr.mergeable == "CONFLICTING") = false)
    (h3 : pr.checks.any (fun c => c.conclusion == "failure") = false)
    (h4 : pr.checks.any (fun c => c.conclusion == "" && c.status != "COMPLETED") = false)
    (h5 : copilotGate reqCopilot pr.author rs ts = CopilotReviewStatus.resolved) :
    evaluate pr reqCopilot rs ts =
      if pr.mergeStateStatus == "BLOCKED" then WState.reviewsPending else WState.ready := by
  simp [evaluate, h1, h2, h3, h4, h5]

/-- C1, witness: `evaluate_merge_state_dispatch` applied to the concrete
BEHIND snapshot `prBehind`, which therefore classifies as `ready`. -/
theorem evaluate_merge_state_dispatch_witness :
    evaluate prBehind false [] [] =
      if prBehind.mergeStateStatus == "BLOCKED" then WState.reviewsPending else WState.ready :=
  evaluate_merge_state_dispatch prBehind false [] []
    (by decide) (by decide) (by decide) (by decide) (by decide)

/-! ### C9: empty checks list -/

/-- C9, counterexample.  The claim states that a PR with an empty checks list
never classifies as `checks_failing` or `checks_pending`; `prNoChecks` has an
empty checks list, yet under a Copilot-requiring policy with no Copilot
review it classifies as `checks_pending` (the Copilot gate's `notReviewed`
branch). -/
theorem empty_checks_counterexample :
    prNoChecks.checks = [] ∧ evaluate prNoChecks true [] [] = WState.checksPending := by
  decide

/-- C9, amended.  A PR with an empty checks list never classifies as
`checks_failing`, and it classifies as `checks_pending` only via the
Copilot-review gate: the policy requires Copilot review, the author is not a
Renovate author, and no Copilot review is present in the cached data. -/
theorem empty_checks_amended (pr : PRInfo) (reqCopilot : Bool)
    (rs : List Review) (ts : List ReviewThread) (h : pr.checks = []) :
    evaluate pr reqCopilot rs ts ≠ WState.checksFailing
    ∧ (evaluate pr reqCopilot rs ts = WState.checksPending →
        reqCopilot = true ∧ isRenovateAuthor pr.author = false
        ∧ checkCopilotReviewStatus rs ts = CopilotReviewStatus.notReviewed) := by
  have hgate : ∀ g : CopilotReviewStatus,
      copilotGate reqCopilot pr.author rs ts = g →
      g = CopilotReviewStatus.notReviewed →
      reqCopilot = true ∧ isRenovateAuthor pr.author = false
      ∧ checkCopilotReviewStatus rs ts = CopilotReviewStatus.notReviewed := by
    intro g hg hn
    subst hn
    unfold copilotGate at hg
    split at hg
    · rename_i hcond
      simp only [Bool.and_eq_true, Bool.not_eq_true'] at hcond
      exact ⟨hcond.1, hcond.2, hg⟩
    · exact absurd hg (by decide)
  unfold evaluate
  rw [h]
  simp only [List.any_nil, Bool.false_eq_true, if_false]
  cases hd : pr.isDraft
  · simp only [Bool.false_eq_true, if_false]
    cases hc : pr.mergeable == "CONFLICTING"
    · simp only [Bool.false_eq_true, if_false]
      cases hg : copilotGate reqCopilot pr.author rs ts with
      | notReviewed => exact ⟨by simp, fun _ => hgate _ hg rfl⟩
      | unresolved => exact ⟨by simp, fun hx => by simp at hx⟩
      | resolved =>
        refine ⟨?_, fun hx => ?_⟩
        · cases hb : pr.mergeStateStatus == "BLOCKED" <;> simp [hb]
        · cases hb : pr.mergeStateStatus == "BLOCKED" <;> simp [hb] at hx
    · simp only [if_true]
      exact ⟨by decide, fun hx => absurd hx (by decide)⟩
  · simp only [if_true]
    exact ⟨by decide, fun hx => absurd hx (by decide)⟩

/-- C9, witness: `empty_checks_amended` at the concrete snapshot
`prNoChecks` with a Copilot-requiring policy and empty caches. -/
theorem empty_checks_amended_witness :
    evaluate prNoChecks true [] [] ≠ WState.checksFailing
    ∧ (evaluate prNoChecks true [] [] = WState.checksPending →
        true = true ∧ isRenovateAuthor prNoChecks.author = false
        ∧ checkCopilotReviewStatus [] [] = CopilotReviewStatus.notReviewed) :=
  empty_checks_amended prNoChecks true [] [] (by decide)

/-! ### C5: PENDING/DISMISSED Copilot reviews -/

/-- A non-draft, mergeable, checkless PR with `mergeStateStatus = CLEAN` by a
non-Renovate author. -/
def prCleanCopilotPending : PRInfo :=
  ⟨13, "feat", "feat", "main", "https://example.test/pr/13", false, "alice",
    "MERGEABLE", "CLEAN", "", [], []⟩

/-- C5: the code at the failing input.  The claim (and the comment in `Run`:
"ignore PENDING/DISMISSED") says a reviews list whose only Copilot entry is
`PENDING` is treated as "no submitted AI review" and classifies as
`checks_pending`.  `Run` indeed treats the review as not submitted when
deciding whether to fetch threads (first conjunct), but
`checkCopilotReviewStatus` scans the cached reviews without any state filter,
so the gate reports `resolved`, `evaluate` returns `ready` (third conjunct),
and the run iteration proceeds to merge (second conjunct). -/
theorem evaluate_pending_copilot_review_bug :
    hasSubmittedCopilotReview [pendingCopilotReview] = false
    ∧ runIter true ⟨prCleanCopilotPending, [], []⟩
        ⟨some prCleanCopilotPending, some [pendingCopilotReview], some [], true, true⟩
      = IterStep.stop [RunEvent.mergeAttempt true]
    ∧ evaluate prCleanCopilotPending true [pendingCopilotReview] [] = WState.ready
    ∧ evaluate prCleanCopilotPending true [pendingCopilotReview] [] ≠ WState.checksPending := by
  decide

/-! ### C2: merge error handling -/

/-- The forge error text of scenario E6. -/
def baseModifiedErr : String :=
  "GraphQL: Base branch was modified. Review and try the merge again. (mergePullRequest)"

/-- C2, counterexample.  The claim states that a `MergePR` error indicating
"base branch was modified" makes the merge action call `UpdateBranch` and
return success; in the code the action returns the error unchanged and never
calls `UpdateBranch`. -/
theorem merge_base_modified_counterexample :
    (merge "squash" (some baseModifiedErr)).1 = some baseModifiedErr
    ∧ (merge "squash" (some baseModifiedErr)).1 ≠ none
    ∧ ForgeCall.updateBranch ∉ (merge "squash" (some baseModifiedErr)).2 := by
  refine ⟨rfl, by simp [merge], ?_⟩
  simp [merge]

/-- C2, amended.  The merge action returns the `MergePR` result unchanged —
every error, including one indicating "base branch was modified", propagates
to the caller — and the only forge call it performs is `MergePR` with the
policy's merge method; `UpdateBranch` is never invoked. -/
theorem merge_propagates_errors (method : String) (res : Option String) :
    merge method res = (res, [ForgeCall.mergePR method])
    ∧ ForgeCall.updateBranch ∉ (merge method res).2 := by
  refine ⟨rfl, ?_⟩
  simp [merge]

/-! ### C10: fixReviews with no unresolved Copilot thread -/

/-- C10: when the cached review threads contain no unresolved, non-outdated
thread with a Copilot comment, `fixReviews` returns nil immediately with an
empty call trace: no fetch, no agent invocation, no unpushed-commit check, no
push and no thread resolution. -/
theorem fixReviews_no_unresolved_noop (threads : List ReviewThread) (env : ActionEnv)
    (resolveOk : String → Bool) (h : unresolvedCopilotThreadIDs threads = []) :
    fixReviews threads env resolveOk = (none, []) := by
  simp [fixReviews, h]

/-- A resolved Copilot thread, an outdated Copilot thread, and an unresolved
human thread: none qualifies as an unresolved Copilot thread. -/
def resolvedThread : ReviewThread := ⟨"T2", true, false, "a.go", 1, [⟨"Copilot", "x"⟩]⟩

def outdatedThread : ReviewThread := ⟨"T3", false, true, "b.go", 2, [⟨"copilot", "y"⟩]⟩

def humanThread : ReviewThread := ⟨"T4", false, false, "c.go", 3, [⟨"alice", "z"⟩]⟩

/-- An environment in which every external call would succeed. -/
def goodActionEnv : ActionEnv := ⟨true, .ran true "done", .ok true, true⟩

/-- A resolve oracle that fails every `ResolveReviewThread` call. -/
def neverResolves : String → Bool := fun _ => false

/-- C10, witness: `fixReviews_no_unresolved_noop` on a cache holding a
resolved Copilot thread, an outdated Copilot thread and an unresolved human
thread. -/
theorem fixReviews_no_unresolved_noop_witness :
    fixReviews [resolvedThread, outdatedThread, humanThread] goodActionEnv neverResolves
      = (none, []) :=
  fixReviews_no_unresolved_noop [resolvedThread, outdatedThread, humanThread]
    goodActionEnv neverResolves (by decide)

/-! ### C3: the worker run loop is not single-shot on merge errors -/

/-- A ready-to-merge PR snapshot for a policy with no Copilot gate. -/
def prReadyClean : PRInfo :=
  ⟨42, "t", "b", "main", "https://example.test/pr/42", false, "alice",
    "MERGEABLE", "CLEAN", "", [], []⟩

/-- An iteration environment whose PR refresh succeeds and whose merge
attempt fails. -/
def readyMergeFailEnv : IterEnv := ⟨some prReadyClean, none, none, true, false⟩

/-- C3, counterexample.  The claim states that `Run` performs at most one
action and then returns, and in particular returns on a merge error.  With a
ready PR whose merge keeps failing, two loop iterations perform two merge
attempts (two dispatched actions) and the invocation has not returned. -/
theorem run_loop_counterexample :
    runLoop false ⟨prReadyClean, [], []⟩ [readyMergeFailEnv, readyMergeFailEnv]
      = ([RunEvent.mergeAttempt false, RunEvent.mergeAttempt false], false)
    ∧ ((runLoop false ⟨prReadyClean, [], []⟩ [readyMergeFailEnv, readyMergeFailEnv]).1.countP
        (fun ev => isActionEvent ev)) = 2 := by
  decide

/-- If a dispatch continues the loop, the recorded event is a continue event
(in fact a failed merge attempt). -/
theorem dispatch_retry_continue (rc : Bool) (st : WorkerSt) (e : IterEnv)
    (ev : RunEvent) (st' : WorkerSt) (h : dispatch rc st e = .retry ev st') :
    isContinueEvent ev = true := by
  unfold dispatch at h
  split at h <;> try exact absurd h (by simp)
  split at h
  · exact absurd h (by simp)
  · cases h
    rfl

/-- If a dispatch stops the loop, it records at most one event. -/
theorem dispatch_stop_short (rc : Bool) (st : WorkerSt) (e : IterEnv)
    (evs : List RunEvent) (h : dispatch rc st e = .stop evs) :
    evs.length ≤ 1 := by
  unfold dispatch at h
  split at h <;> try (cases h; simp)
  split at h
  · cases h; simp
  · exact absurd h (by simp)

/-- If a run iteration continues the loop, the recorded event is a continue
event (a transient fetch failure or a failed merge attempt). -/
theorem runIter_retry_continue (rc : Bool) (st : WorkerSt) (e : IterEnv)
    (ev : RunEvent) (st' : WorkerSt) (h : runIter rc st e = .retry ev st') :
    isContinueEvent ev = true := by
  unfold runIter at h
  split at h
  · cases h; rfl
  · split at h
    · split at h
      · cases h; rfl
      · split at h
        · split at h
          · cases h; rfl
          · exact dispatch_retry_continue _ _ _ _ _ h
        · exact dispatch_retry_continue _ _ _ _ _ h
    · exact dispatch_retry_continue _ _ _ _ _ h

/-- If a run iteration returns, it records at most one event. -/
theorem runIter_stop_short (rc : Bool) (st : WorkerSt) (e : IterEnv)
    (evs : List RunEvent) (h : runIter rc st e = .stop evs) :
    evs.length ≤ 1 := by
  unfold runIter at h
  split at h
  · exact absurd h (by simp)
  · split at h
    · split at h
      · exact absurd h (by simp)
      · split at h
        · split at h
          · exact absurd h (by simp)
          · exact dispatch_stop_short _ _ _ _ h
        · exact dispatch_stop_short _ _ _ _ h
    · exact dispatch_stop_short _ _ _ _ h

/-- C3, amended.  In every `Run` invocation, every recorded event except
possibly the last is a continue event (a transient fetch failure or a failed
merge attempt) — so the only action the worker can perform without returning
is a failed merge, and any other dispatched action (or a successful merge) is
the last thing the invocation does; moreover if the invocation has not
returned, every event so far is a continue event. -/
theorem run_loop_single_terminal (rc : Bool) (st : WorkerSt) (env : List IterEnv) :
    ((runLoop rc st env).1.dropLast.all (fun ev => isContinueEvent ev) = true)
    ∧ ((runLoop rc st env).2 = false →
        (runLoop rc st env).1.all (fun ev => isContinueEvent ev) = true) := by
  induction env generalizing st with
  | nil => exact ⟨rfl, fun _ => rfl⟩
  | cons e rest ih =>
    cases hIter : runIter rc st e with
    | stop evs =>
      have hlen := runIter_stop_short rc st e evs hIter
      constructor
      · show ((runLoop rc st (e :: rest)).1.dropLast.all (fun ev => isContinueEvent ev)) = true
        rw [runLoop, hIter]
        match evs, hlen with
        | [], _ => rfl
        | [ev], _ => rfl
      · intro hfalse
        rw [runLoop, hIter] at hfalse
        exact absurd hfalse (by simp)
    | retry ev st' =>
      have hev := runIter_retry_continue rc st e ev st' hIter
      have ihh := ih st'
      have hFst : (runLoop rc st (e :: rest)).1 = ev :: (runLoop rc st' rest).1 := by
        rw [runLoop, hIter]
      have hSnd : (runLoop rc st (e :: rest)).2 = (runLoop rc st' rest).2 := by
        rw [runLoop, hIter]
      constructor
      · rw [hFst]
        rcases hr : (runLoop rc st' rest).1 with _ | ⟨a, l⟩
        · rfl
        · have h1 := ihh.1
          rw [hr] at h1
          simp only [List.dropLast, List.all_cons, Bool.and_eq_true]
          refine ⟨hev, ?_⟩
          simpa using h1
      · intro hfalse
        rw [hSnd] at hfalse
        rw [hFst]
        simp only [List.all_cons, Bool.and_eq_true]
        exact ⟨hev, ihh.2 hfalse⟩

/-- C3 amended, witness: a single failed-merge iteration leaves the run still
looping with a trace of continue events only. -/
theorem run_loop_single_terminal_witness :
    ((runLoop false ⟨prReadyClean, [], []⟩ [readyMergeFailEnv]).1.dropLast.all
        (fun ev => isContinueEvent ev) = true)
    ∧ ((runLoop false ⟨prReadyClean, [], []⟩ [readyMergeFailEnv]).1.all
        (fun ev => isContinueEvent ev) = true) :=
  ⟨(run_loop_single_terminal false ⟨prReadyClean, [], []⟩ [readyMergeFailEnv]).1,
    (run_loop_single_terminal false ⟨prReadyClean, [], []⟩ [readyMergeFailEnv]).2 (by decide)⟩

/-! ### C4: fixReviews resolves every captured thread exactly once -/

/-- The thread IDs of the `ResolveReviewThread` calls in an action trace, in
order. -/
def resolveCallIds (calls : List ActionCall) : List String :=
  calls.filterMap (fun c =>
    match c with
    | .resolveThread id _ => some id
    | _ => none)

/-- If the shared five-step body succeeds, its trace is exactly
fetch, agent, unpushed-commit check, push. -/
theorem runAgentAndPush_none (env : ActionEnv) (calls : List ActionCall)
    (h : runAgentAndPush env = (none, calls)) :
    calls = [.fetch, .agentRun, .hasUnpushedCommitsCall, .push] := by
  unfold runAgentAndPush at h
  split at h
  · exact absurd h (by simp)
  · split at h
    · exact absurd h (by simp)
    · split at h
      · exact absurd h (by simp)
      · split at h
        · exact absurd h (by simp)
        · split at h
          · exact absurd h (by simp)
          · split at h
            · exact absurd h (by simp)
            · injection h with h1 h2
              exact h2.symm

/-- Extracting the resolve IDs from the resolve-call block recovers the
captured thread IDs, whatever the per-call outcomes are. -/
theorem resolveCallIds_map (ids : List String) (resolveOk : String → Bool) :
    resolveCallIds (ids.map (fun id => ActionCall.resolveThread id (resolveOk id))) = ids := by
  induction ids with
  | nil => rfl
  | cons a l ih =>
    simp only [List.map_cons, resolveCallIds, List.filterMap_cons] at *
    rw [ih]

/-- C4.  In every successful `fixReviews` run that reaches the push step, the
`ResolveReviewThread` calls are attempted on exactly the thread IDs captured
before the agent invocation, and (the captured IDs being distinct) each of
them exactly once; the per-call outcomes `resolveOk` never affect this. -/
theorem fixReviews_resolves_each_thread_once (threads : List ReviewThread)
    (env : ActionEnv) (resolveOk : String → Bool)
    (hok : (fixReviews threads env resolveOk).1 = none)
    (hpush : ActionCall.push ∈ (fixReviews threads env resolveOk).2)
    (hnodup : (unresolvedCopilotThreadIDs threads).Nodup) :
    resolveCallIds (fixReviews threads env resolveOk).2 = unresolvedCopilotThreadIDs threads
    ∧ ∀ id ∈ unresolvedCopilotThreadIDs threads,
        (resolveCallIds (fixReviews threads env resolveOk).2).count id = 1 := by
  have heq : resolveCallIds (fixReviews threads env resolveOk).2
      = unresolvedCopilotThreadIDs threads := by
    by_cases hu : (unresolvedCopilotThreadIDs threads).isEmpty = true
    · rw [fixReviews_no_unresolved_noop threads env resolveOk (List.isEmpty_iff.mp hu)] at hpush
      exact absurd hpush (by simp)
    · rcases hr : runAgentAndPush env with ⟨res, calls⟩
      cases res with
      | some e =>
        rw [show fixReviews threads env resolveOk = (some e, calls) by
          simp [fixReviews, hu, hr]] at hok
        exact absurd hok (by simp)
      | none =>
        have hcalls := runAgentAndPush_none env calls hr
        subst hcalls
        rw [show fixReviews threads env resolveOk
            = (none, [.fetch, .agentRun, .hasUnpushedCommitsCall, .push]
                ++ (unresolvedCopilotThreadIDs threads).map
                  (fun id => ActionCall.resolveThread id (resolveOk id))) by
          simp [fixReviews, hu, hr]]
        have hmap := resolveCallIds_map (unresolvedCopilotThreadIDs threads) resolveOk
        simpa [resolveCallIds, List.filterMap_cons] using hmap
  refine ⟨heq, fun id hid => ?_⟩
  rw [heq]
  exact List.count_eq_one_of_mem hnodup hid

/-- An unresolved, non-outdated review thread with a Copilot comment. -/
def copilotThread : ReviewThread := ⟨"T1", false, false, "main.go", 3, [⟨"Copilot", "nit"⟩]⟩

/-- C4, witness: a successful run over one captured Copilot thread, with a
resolve oracle that fails every call, still attempts `ResolveReviewThread`
on `"T1"` exactly once. -/
theorem fixReviews_resolves_each_thread_once_witness :
    (resolveCallIds (fixReviews [copilotThread] goodActionEnv neverResolves).2).count "T1" = 1 :=
  (fixReviews_resolves_each_thread_once [copilotThread] goodActionEnv neverResolves
    (by decide) (by decide) (by decide)).2 "T1" (by decide)

/-! ### C6: no-commits-produced blocks the push; HasUnpushedCommits semantics -/

/-- Fuel lemma: with sufficient fuel, `Nat.toDigitsCore` prepends at least one
digit to its accumulator. -/
theorem toDigitsCore_length_ge (b : Nat) (hb : 2 ≤ b) :
    ∀ (f n : Nat) (l : List Char), n < f →
      l.length + 1 ≤ (Nat.toDigitsCore b f n l).length := by
  intro f
  induction f with
  | zero => intro n l h; omega
  | succ f ih =>
    intro n l hlt
    rw [Nat.toDigitsCore]
    by_cases hz : n / b = 0
    · rw [if_pos hz]
      simp
    · rw [if_neg hz]
      have hn0 : 0 < n := by
        rcases Nat.eq_zero_or_pos n with h0 | h0
        · subst h0; simp at hz
        · exact h0
      have hdiv : n / b < n := Nat.div_lt_self hn0 (by omega)
      have hf : n / b < f := by omega
      have := ih (n / b) (Nat.digitChar (n % b) :: l) hf
      simpa using Nat.le_of_succ_le this

/-- The decimal representation of a number with at least two digits has
length at least two. -/
theorem repr_len_ge_two (n : Nat) (h : 10 ≤ n) : 2 ≤ (Nat.repr n).length := by
  unfold Nat.repr Nat.toDigits
  have hz : n / 10 ≠ 0 := by
    intro h0
    have := Nat.div_eq_zero_iff (by norm_num : 0 < 10) |>.mp h0
    omega
  rw [Nat.toDigitsCore]
  rw [if_neg hz]
  have hdiv : n / 10 < n := Nat.div_lt_self (by omega) (by omega)
  have := toDigitsCore_length_ge 10 (by omega) n (n / 10) [Nat.digitChar (n % 10)] (by omega)
  simpa [String.length, List.asString] using this

/-- A non-zero number never prints as `"0"`. -/
theorem repr_ne_zero_of_ne_zero (n : Nat) (h : n ≠ 0) : Nat.repr n ≠ "0" := by
  rcases Nat.lt_or_ge n 10 with hlt | hge
  · have h1 : 1 ≤ n := by omega
    interval_cases n <;> decide
  · intro heq
    have h2 := repr_len_ge_two n hge
    rw [heq] at h2
    simp [String.length] at h2

/-- If the agent reported success but `HasUnpushedCommits` is false, the
shared five-step body stops with the no-commits error before pushing. -/
theorem runAgentAndPush_no_commits (env : ActionEnv) (outp : String)
    (hfetch : env.fetchOk = true)
    (hagent : env.agent = AgentOutcome.ran true outp)
    (hunpushed : env.unpushed = UnpushedOutcome.ok false) :
    runAgentAndPush env
      = (some GoError.noCommits, [.fetch, .agentRun, .hasUnpushedCommitsCall]) := by
  simp [runAgentAndPush, hfetch, hagent, hunpushed]

/-- C6.  For each of the three mutating actions, when the agent reports
success but `HasUnpushedCommits` returns false, the action returns the
no-commits-produced error and `git push` is never invoked (`fixReviews` under
the proviso that it captured at least one thread, since it otherwise returns
before running the agent); and on an output string that prints a commit count
`n`, `hasUnpushedCommits` is true exactly when `n` is non-zero. -/
theorem agent_success_without_commits_blocks_push (env : ActionEnv)
    (threads : List ReviewThread) (resolveOk : String → Bool) (outp s : String) (n : Nat)
    (hfetch : env.fetchOk = true)
    (hagent : env.agent = AgentOutcome.ran true outp)
    (hunpushed : env.unpushed = UnpushedOutcome.ok false)
    (hthreads : (unresolvedCopilotThreadIDs threads).isEmpty = false)
    (hout : s.trim = Nat.repr n) :
    ((resolveConflicts env).1 = some GoError.noCommits
      ∧ ActionCall.push ∉ (resolveConflicts env).2)
    ∧ ((fixChecks env).1 = some GoError.noCommits
      ∧ ActionCall.push ∉ (fixChecks env).2)
    ∧ ((fixReviews threads env resolveOk).1 = some GoError.noCommits
      ∧ ActionCall.push ∉ (fixReviews threads env resolveOk).2)
    ∧ (hasUnpushedCommits s = true ↔ n ≠ 0) := by
  have hseq := runAgentAndPush_no_commits env outp hfetch hagent hunpushed
  have hfix : fixReviews threads env resolveOk
      = (some GoError.noCommits, [.fetch, .agentRun, .hasUnpushedCommitsCall]) := by
    simp [fixReviews, hthreads, hseq]
  refine ⟨⟨?_, ?_⟩, ⟨?_, ?_⟩, ⟨?_, ?_⟩, ?_⟩
  · rw [resolveConflicts, hseq]
  · rw [resolveConflicts, hseq]; simp
  · rw [fixChecks, hseq]
  · rw [fixChecks, hseq]; simp
  · rw [hfix]
  · rw [hfix]; simp
  · rw [hasUnpushedCommits, hout]
    constructor
    · intro hne h0
      subst h0
      exact absurd hne (by decide)
    · intro hne
      have := repr_ne_zero_of_ne_zero n hne
      simpa [bne_iff_ne] using this

/-- An environment in which the agent succeeds but produces no commits. -/
def noCommitsEnv : ActionEnv := ⟨true, .ran true "all done", .ok false, true⟩

/-- Concrete evaluation of `String.trim` on the one-digit output `"3"`
(`trim` recurses on byte positions, so this is proved by unfolding each of its
two scans one step). -/
theorem trim_digit : "3".trim = "3" := by
  have h1 : Substring.takeWhileAux "3" ⟨1⟩ Char.isWhitespace ⟨0⟩ = ⟨0⟩ := by
    rw [Substring.takeWhileAux]
    decide
  have h2 : Substring.takeRightWhileAux "3" ⟨0⟩ Char.isWhitespace ⟨1⟩ = ⟨1⟩ := by
    rw [Substring.takeRightWhileAux]
    decide
  show ("3".toSubstring.trim).toString = "3"
  rw [show "3".toSubstring = ⟨"3", ⟨0⟩, ⟨1⟩⟩ from rfl]
  rw [Substring.trim]
  rw [h1, h2]
  decide

/-- C6, witness: the concrete no-commits environment over one captured
Copilot thread, with the rev-list output `"3"`. -/
theorem agent_success_without_commits_blocks_push_witness :
    ((resolveConflicts noCommitsEnv).1 = some GoError.noCommits
      ∧ ActionCall.push ∉ (resolveConflicts noCommitsEnv).2)
    ∧ ((fixChecks noCommitsEnv).1 = some GoError.noCommits
      ∧ ActionCall.push ∉ (fixChecks noCommitsEnv).2)
    ∧ ((fixReviews [copilotThread] noCommitsEnv neverResolves).1 = some GoError.noCommits
      ∧ ActionCall.push ∉ (fixReviews [copilotThread] noCommitsEnv neverResolves).2)
    ∧ (hasUnpushedCommits "3" = true ↔ 3 ≠ 0) :=
  agent_success_without_commits_blocks_push noCommitsEnv [copilotThread] neverResolves
    "all done" "3" 3 (by decide) (by decide) (by decide) (by decide)
    (by rw [trim_digit]; decide)

/-! ### C7: daemon spawn invariants -/

/-- Every key present after the spawn loop either was already a worker or
belongs to a listed PR that is not excluded, not a draft and not blocked. -/
theorem spawnLoop_mem (repo : RepoConfig) :
    ∀ (prs : List PRInfo) (workers : List String) (ac : Nat) (k : String),
      k ∈ spawnLoop repo workers ac prs →
      k ∈ workers ∨ ∃ pr, pr ∈ prs ∧ k = workerKey repo.owner repo.name pr.number
        ∧ isExcluded pr.author repo.excludeAuthors = false
        ∧ pr.isDraft = false ∧ hasBlockingLabel pr = false := by
  intro prs
  induction prs with
  | nil => intro workers ac k h; exact Or.inl h
  | cons pr rest ih =>
    intro workers ac k h
    rw [spawnLoop] at h
    split at h
    · rcases ih workers ac k h with hw | ⟨pr', hpr', hrest⟩
      · exact Or.inl hw
      · exact Or.inr ⟨pr', List.mem_cons_of_mem pr hpr', hrest⟩
    · split at h
      · rcases ih workers ac k h with hw | ⟨pr', hpr', hrest⟩
        · exact Or.inl hw
        · exact Or.inr ⟨pr', List.mem_cons_of_mem pr hpr', hrest⟩
      · split at h
        · rcases ih workers ac k h with hw | ⟨pr', hpr', hrest⟩
          · exact Or.inl hw
          · exact Or.inr ⟨pr', List.mem_cons_of_mem pr hpr', hrest⟩
        · split at h
          · rcases ih workers ac k h with hw | ⟨pr', hpr', hrest⟩
            · exact Or.inl hw
            · exact Or.inr ⟨pr', List.mem_cons_of_mem pr hpr', hrest⟩
          · split at h
            · exact Or.inl h
            · rcases ih _ _ k h with hw | ⟨pr', hpr', hrest⟩
              · rcases List.mem_cons.mp hw with hk | hw'
                · refine Or.inr ⟨pr, List.mem_cons_self pr rest, hk, ?_, ?_, ?_⟩
                  all_goals simp_all
                · exact Or.inl hw'
              · exact Or.inr ⟨pr', List.mem_cons_of_mem pr hpr', hrest⟩

/-- The spawn loop never creates a duplicate worker key. -/
theorem spawnLoop_nodup (repo : RepoConfig) :
    ∀ (prs : List PRInfo) (workers : List String) (ac : Nat),
      workers.Nodup → (spawnLoop repo workers ac prs).Nodup := by
  intro prs
  induction prs with
  | nil => intro workers ac h; exact h
  | cons pr rest ih =>
    intro workers ac h
    rw [spawnLoop]
    split
    · exact ih workers ac h
    · split
      · exact ih workers ac h
      · split
        · exact ih workers ac h
        · split
          · exact ih workers ac h
          · split
            · exact h
            · rename_i hnotin _
              refine ih _ _ (List.nodup_cons.mpr ⟨?_, h⟩)
              simpa using hnotin

/-- Along the spawn loop, the number of repo-matching keys stays bounded by
the running `activeCount`, which itself never passes `maxConcurrentPRs` once
it reaches it. -/
theorem spawnLoop_count_le (repo : RepoConfig) :
    ∀ (prs : List PRInfo) (workers : List String) (ac : Nat),
      countActiveForRepo repo workers ≤ ac →
      countActiveForRepo repo (spawnLoop repo workers ac prs)
        ≤ max ac repo.maxConcurrentPRs := by
  intro prs
  induction prs with
  | nil => intro workers ac h; exact Nat.le_trans h (Nat.le_max_left ..)
  | cons pr rest ih =>
    intro workers ac h
    rw [spawnLoop]
    split
    · exact ih workers ac h
    · split
      · exact ih workers ac h
      · split
        · exact ih workers ac h
        · split
          · exact ih workers ac h
          · split
            · exact Nat.le_trans h (Nat.le_max_left ..)
            · rename_i hcap
              have hstep : countActiveForRepo repo
                  (workerKey repo.owner repo.name pr.number :: workers) ≤ ac + 1 := by
                unfold countActiveForRepo at h ⊢
                rw [List.countP_cons]
                split <;> omega
              have := ih _ (ac + 1) hstep
              omega

/-- C7.  One `pollRepo` pass over the still-open PR list: (1) every newly
spawned worker key belongs to a listed PR whose author is not excluded, which
is not a draft and which carries no blocking label; (2) no worker key is ever
duplicated; (3) if the repo-matching worker count was within
`maxConcurrentPRs` before the poll, it still is after it. -/
theorem pollRepo_spawn_invariants (repo : RepoConfig) (workers : List String)
    (prs : List PRInfo) (hnodup : workers.Nodup)
    (hcap : countActiveForRepo repo workers ≤ repo.maxConcurrentPRs) :
    (∀ k ∈ pollRepoWorkers repo workers prs, k ∉ workers →
       ∃ pr, pr ∈ prs ∧ k = workerKey repo.owner repo.name pr.number
         ∧ isExcluded pr.author repo.excludeAuthors = false
         ∧ pr.isDraft = false ∧ hasBlockingLabel pr = false)
    ∧ (pollRepoWorkers repo workers prs).Nodup
    ∧ countActiveForRepo repo (pollRepoWorkers repo workers prs)
        ≤ repo.maxConcurrentPRs := by
  refine ⟨?_, ?_, ?_⟩
  · intro k hk hnot
    have hk' : k ∈ spawnLoop repo workers (countActiveForRepo repo workers) prs :=
      (List.mem_filter.mp hk).1
    rcases spawnLoop_mem repo prs workers _ k hk' with hw | hex
    · exact absurd hw hnot
    · exact hex
  · exact (spawnLoop_nodup repo prs workers _ hnodup).filter _
  · have h1 := spawnLoop_count_le repo prs workers (countActiveForRepo repo workers)
      (Nat.le_refl _)
    rw [Nat.max_eq_right hcap] at h1
    exact Nat.le_trans ((List.filter_sublist _).countP_le _) h1

/-- The repo configuration used by the daemon witnesses. -/
def acmeRepo : RepoConfig := ⟨"acme", "api", "main", ["bot"], "squash", 1, true⟩

/-- Two eligible open PRs and one by an excluded author. -/
def prOpenA : PRInfo :=
  ⟨1, "a", "a", "main", "u1", false, "alice", "MERGEABLE", "CLEAN", "", [], []⟩

def prOpenB : PRInfo :=
  ⟨2, "b", "b", "main", "u2", false, "carol", "MERGEABLE", "CLEAN", "", [], []⟩

def prFromBot : PRInfo :=
  ⟨3, "c", "c", "main", "u3", false, "bot", "MERGEABLE", "CLEAN", "", [], []⟩

/-- C7, witness: polling `acmeRepo` (cap 1) with no live workers over the
three PRs keeps the repo-matching worker count within the cap. -/
theorem pollRepo_spawn_invariants_witness :
    countActiveForRepo acmeRepo (pollRepoWorkers acmeRepo [] [prOpenA, prOpenB, prFromBot])
      ≤ acmeRepo.maxConcurrentPRs :=
  (pollRepo_spawn_invariants acmeRepo [] [prOpenA, prOpenB, prFromBot]
    (by decide) (by decide)).2.2

/-! ### C8: cache replacement and prefetch-failure preservation -/

/-- Every entry of the collected status list is keyed by a listed PR whose
prefetch succeeded. -/
theorem pollStatuses_keys (repo : RepoConfig) (prs : List PRInfo)
    (fetchReviews : Nat → Option (List Review))
    (fetchThreads : Nat → Option (List ReviewThread)) :
    ∀ x ∈ pollStatuses repo prs fetchReviews fetchThreads,
      ∃ pr, pr ∈ prs ∧ x.1 = workerKey repo.owner repo.name pr.number
        ∧ prefetchCopilotStatus pr (fetchReviews pr.number) (fetchThreads pr.number) ≠ none := by
  intro x hx
  unfold pollStatuses at hx
  split at hx
  · rcases List.mem_filterMap.mp hx with ⟨pr, hpr, hmap⟩
    rcases Option.map_eq_some'.mp hmap with ⟨s, hs, hxs⟩
    exact ⟨pr, hpr, by rw [← hxs], by rw [hs]; simp⟩
  · exact absurd hx (by simp)

/-- Keys receiving no collected status keep their previous cache values. -/
theorem writeStatuses_not_mem (k : String) :
    ∀ (sts : List (String × Bool × Bool)) (review unresolved : String → Option Bool),
      (∀ s ∈ sts, k ≠ s.1) →
      (writeStatuses review unresolved sts).1 k = review k
      ∧ (writeStatuses review unresolved sts).2 k = unresolved k := by
  intro sts
  induction sts with
  | nil => intro review unresolved h; exact ⟨rfl, rfl⟩
  | cons s rest ih =>
    intro review unresolved h
    have hk : k ≠ s.1 := h s (List.mem_cons_self s rest)
    have hrest := ih (fun k' => if k' == s.1 then some s.2.1 else review k')
      (fun k' => if k' == s.1 then some s.2.2 else unresolved k')
      (fun s' hs' => h s' (List.mem_cons_of_mem s hs'))
    rw [writeStatuses]
    rw [hrest.1, hrest.2]
    constructor <;> simp [hk]

/-- C8.  One `pollRepo` pass over the caches: the repo's `prCache` entry is
replaced as a whole with the listed PRs and no other repo's entry changes;
and for a PR whose Copilot-status prefetch failed, both per-PR cache entries
keep their previous values (assuming the listed PRs have pairwise distinct
worker keys). -/
theorem pollRepo_cache_semantics (repo : RepoConfig) (c : PRCacheState)
    (prs : List PRInfo) (fetchReviews : Nat → Option (List Review))
    (fetchThreads : Nat → Option (List ReviewThread)) (pr : PRInfo)
    (hmem : pr ∈ prs)
    (hfail : prefetchCopilotStatus pr (fetchReviews pr.number) (fetchThreads pr.number) = none)
    (hnodup : (prs.map (fun p => workerKey repo.owner repo.name p.number)).Nodup) :
    (pollRepoCacheUpdate repo c prs fetchReviews fetchThreads).prCache (repoKeyOf repo)
      = some prs
    ∧ (∀ k, k ≠ repoKeyOf repo →
        (pollRepoCacheUpdate repo c prs fetchReviews fetchThreads).prCache k = c.prCache k)
    ∧ (pollRepoCacheUpdate repo c prs fetchReviews fetchThreads).copilotReviewCache
        (workerKey repo.owner repo.name pr.number)
      = c.copilotReviewCache (workerKey repo.owner repo.name pr.number)
    ∧ (pollRepoCacheUpdate repo c prs fetchReviews fetchThreads).copilotUnresolvedCache
        (workerKey repo.owner repo.name pr.number)
      = c.copilotUnresolvedCache (workerKey repo.owner repo.name pr.number) := by
  have hkey : ∀ x ∈ pollStatuses repo prs fetchReviews fetchThreads,
      workerKey repo.owner repo.name pr.number ≠ x.1 := by
    intro x hx
    rcases pollStatuses_keys repo prs fetchReviews fetchThreads x hx with ⟨pr', hpr', hxk, hok⟩
    rw [hxk]
    intro heq
    have : pr = pr' := List.inj_on_of_nodup_map hnodup hmem hpr' heq
    rw [← this] at hok
    exact hok hfail
  have hw := writeStatuses_not_mem (workerKey repo.owner repo.name pr.number)
    (pollStatuses repo prs fetchReviews fetchThreads)
    c.copilotReviewCache c.copilotUnresolvedCache hkey
  refine ⟨?_, ?_, ?_, ?_⟩
  · simp [pollRepoCacheUpdate]
  · intro k hk
    simp only [pollRepoCacheUpdate]
    rw [if_neg (by simpa using hk)]
  · exact hw.1
  · exact hw.2

/-- A PR cache populated for PR `acme/api#5`. -/
def cacheBefore : PRCacheState :=
  ⟨fun _ => none,
    fun k => if k == workerKey "acme" "api" 5 then some true else none,
    fun k => if k == workerKey "acme" "api" 5 then some true else none⟩

/-- The open PR whose reviews prefetch will fail. -/
def prOpenFive : PRInfo :=
  ⟨5, "e", "e", "main", "u5", false, "alice", "MERGEABLE", "CLEAN", "", [], []⟩

/-- C8, witness: with the reviews prefetch failing for `acme/api#5`, one poll
of `acmeRepo` leaves its cached `hasCopilotReview` value untouched. -/
theorem pollRepo_cache_semantics_witness :
    (pollRepoCacheUpdate acmeRepo cacheBefore [prOpenFive]
        (fun _ => none) (fun _ => none)).copilotReviewCache
      (workerKey acmeRepo.owner acmeRepo.name prOpenFive.number)
    = cacheBefore.copilotReviewCache
        (workerKey acmeRepo.owner acmeRepo.name prOpenFive.number) :=
  (pollRepo_cache_semantics acmeRepo cacheBefore [prOpenFive]
    (fun _ => none) (fun _ => none) prOpenFive
    (by decide) (by decide) (by decide)).2.2.1

end AutoClaude
